import Mathlib

/-!
Shallow embedding of the multi-environment task runner of
`src/project/tasks.py` (the `get_poetry_venv`, `setpath` and `python`
functions, and the task pre/post chaining used by `check` and `test`).

Python strings are modelled as `List Char`.  The relevant mutable process
state (the `VIRTUAL_ENV` and `PATH` environment variables, the
`context.python_version` attribute, and an observation log recording the
side effects of task bodies) is threaded explicitly.  A computation that
may raise is a function `PState → TResult`, where an exception carries the
state at the moment it was raised (Python exceptions do not roll state
back).
-/

set_option maxRecDepth 4000

/-- Exceptions that the embedded code can raise. -/
inductive Err where
  | keyError (key : List Char)
  | attributeError
  | taskFailure
deriving DecidableEq

/-- The observable process state threaded through the embedded code. -/
structure PState where
  virtual_env : Option (List Char)
  path : Option (List Char)
  python_version : Option (List Char)
  log : List (List Char)
deriving DecidableEq

/-- Result of running an embedded computation: normal return or an
exception, each carrying the state left behind. -/
inductive TResult where
  | ok (s : PState)
  | err (e : Err) (s : PState)
deriving DecidableEq

/-- The state a computation left behind, whether it returned or raised. -/
def TResult.state : TResult → PState
  | .ok s => s
  | .err _ s => s

/-- Embedding of Python `l.endswith(s)`: `s` is a suffix of `l`. -/
def endswith (l s : List Char) : Bool :=
  decide (l.drop (l.length - s.length) = s)

/-- Embedding of Python `l.split("-")` (splitting on a single dash). -/
def splitDash : List Char → List (List Char)
  | [] => [[]]
  | c :: rest =>
    if c = '-' then [] :: splitDash rest
    else
      match splitDash rest with
      | [] => [[c]]
      | g :: gs => (c :: g) :: gs

/-- Embedding of Python `"-".join(groups)`. -/
def joinDash : List (List Char) → List Char
  | [] => []
  | [g] => g
  | g :: g2 :: gs => g ++ '-' :: joinDash (g2 :: gs)

/-- `get_poetry_venv` from tasks.py: read `VIRTUAL_ENV` (raising KeyError,
modelled as `none`, when absent); if it already ends with `py{version}`
return it, otherwise drop the last dash-separated group and append
`-py{version}`. -/
def get_poetry_venv (python_version : List Char) (s : PState) : Option (List Char) :=
  match s.virtual_env with
  | none => none
  | some current_venv =>
    if endswith current_venv ('p' :: 'y' :: python_version) then some current_venv
    else some (joinDash (splitDash current_venv).dropLast ++ '-' :: 'p' :: 'y' :: python_version)

/-- The `setpath` context manager from tasks.py, applied to a body: save
`PATH`, set it to `path ++ ":" ++ saved`, run the body, and restore the
saved value.  The generator has a bare `yield` with no try/finally, so when
the body raises the restoring assignment never runs and the exception
propagates with the state the body left. -/
def setpath (path : List Char) (body : PState → TResult) (s : PState) : TResult :=
  match s.path with
  | none => .err (.keyError ("PATH".toList)) s
  | some current_path =>
    match body { s with path := some (path ++ ':' :: current_path) } with
    | .ok s2 => .ok { s2 with path := some current_path }
    | .err e s2 => .err e s2

/-- The statements inside the `with` block of the `python` wrapper: set
`context.python_version`, call the wrapped function, then
`del context.python_version` (an AttributeError if the attribute is gone). -/
def version_body (func : PState → TResult) (version : List Char) (s : PState) : TResult :=
  match func { s with python_version := some version } with
  | .ok s2 =>
    match s2.python_version with
    | some _ => .ok { s2 with python_version := none }
    | none => .err .attributeError s2
  | .err e s2 => .err e s2

/-- One iteration of the `python` wrapper's loop: resolve the venv for
`version` (KeyError when `VIRTUAL_ENV` is absent), then run the body under
`setpath(Path(venv) / "bin")`. -/
def run_version (func : PState → TResult) (version : List Char) (s : PState) : TResult :=
  match get_poetry_venv version s with
  | none => .err (.keyError ("VIRTUAL_ENV".toList)) s
  | some venv => setpath (venv ++ "/bin".toList) (version_body func version) s

/-- The `for version in versions` loop of the `python` wrapper; an
exception aborts the remaining iterations. -/
def wrapped_run (func : PState → TResult) : List (List Char) → PState → TResult
  | [], s => .ok s
  | v :: rest, s =>
    match run_version func v s with
    | .ok s2 => wrapped_run func rest s2
    | .err e s2 => .err e s2

/-- The `python` decorator from tasks.py: for a falsy (empty) version
sequence it returns the identity decorator, so the task body is returned
unchanged; otherwise it wraps the body in the per-version loop. -/
def python (versions : List (List Char)) (func : PState → TResult) : PState → TResult :=
  if versions.isEmpty then func else wrapped_run func versions

/-- Run a list of task bodies in order, aborting at the first exception. -/
def run_seq : List (PState → TResult) → PState → TResult
  | [], s => .ok s
  | t :: ts, s =>
    match t s with
    | .ok s2 => run_seq ts s2
    | .err e s2 => .err e s2

/-- Modelled from the spec: the pre/post task chaining provided by the
task-runner library (`invoke.task(pre..., post=[...])`, used by `check`
and `test`), whose execution engine is not part of this repository's
sources.  Per the spec, prerequisites run fully in declared order before
the body, post-tasks run after the body completes successfully, and any
failure aborts the remaining chain and surfaces to the invoker. -/
def run_task (pre : List (PState → TResult)) (body : PState → TResult)
    (post : List (PState → TResult)) (s : PState) : TResult :=
  match run_seq pre s with
  | .ok s1 =>
    match body s1 with
    | .ok s2 => run_seq post s2
    | .err e s2 => .err e s2
  | .err e s1 => .err e s1

/-- An instrumented task body that records the active
`context.python_version` in the log and returns normally. -/
def probe : PState → TResult := fun s =>
  .ok { s with log := s.log ++ [s.python_version.getD []] }

/-- A task body that returns normally after recording its name. -/
def tag (name : List Char) : PState → TResult := fun s =>
  .ok { s with log := s.log ++ [name] }

/-- A task body that records its name and then fails. -/
def failTag (name : List Char) : PState → TResult := fun s =>
  .err .taskFailure { s with log := s.log ++ [name] }

/-- A task body that raises immediately, leaving the state untouched. -/
def fail_body : PState → TResult := fun s => .err .taskFailure s

/-- A task body that returns immediately, leaving the state untouched. -/
def ok_body : PState → TResult := fun s => .ok s

/-- A concrete process state used for witnesses and counterexamples. -/
def s_example : PState :=
  { virtual_env := some ("/venvs/proj-py3.6".toList)
    path := some ("/usr/bin".toList)
    python_version := none
    log := [] }

/-- The state left after one successful probed invocation on `s_example`. -/
def s_after : PState := { s_example with python_version := none, log := [("3.6".toList)] }

lemma setpath_ok_path (p : List Char) (body : PState → TResult) (s s' : PState)
    (h : setpath p body s = .ok s') : s'.path = s.path := by
  unfold setpath at h
  split at h
  · exact absurd h (by simp)
  · rename_i cp hp
    split at h
    · simp only [TResult.ok.injEq] at h
      subst h
      simp [hp]
    · exact absurd h (by simp)

/-- Claim C5: for an empty sequence of environment identifiers, the
`python` decorator returns the task body unchanged, so the resulting task
is the unwrapped body itself (identical invocation count and side
effects, no environment scoping). -/
theorem python_empty_is_identity (func : PState → TResult) : python [] func = func := rfl

/-- Claim C9: when `VIRTUAL_ENV` is absent from the process environment,
`get_poetry_venv` raises (modelled as `none`) and an environment-scoped
invocation fails with that KeyError, leaving the state untouched: no
recovery, no default value. -/
theorem get_poetry_venv_missing_env_fatal (func : PState → TResult) (v : List Char)
    (pa pv : Option (List Char)) (lg : List (List Char)) :
    get_poetry_venv v ⟨none, pa, pv, lg⟩ = none ∧
    run_version func v ⟨none, pa, pv, lg⟩ =
      .err (.keyError ("VIRTUAL_ENV".toList)) ⟨none, pa, pv, lg⟩ :=
  ⟨rfl, rfl⟩

/-- Claim C6: a task with prerequisites `[A, B]` and post-task `[C]` runs
A, B, the body, then C in that order; when B fails, neither the body nor C
runs and the failure surfaces to the invoker. -/
theorem run_task_order_and_abort (s : PState) (a b bd c : List Char) :
    run_task [tag a, tag b] (tag bd) [tag c] s =
      .ok { s with log := s.log ++ [a, b, bd, c] } ∧
    run_task [tag a, failTag b] (tag bd) [tag c] s =
      .err .taskFailure { s with log := s.log ++ [a, b] } := by
  constructor <;> simp [run_task, run_seq, tag, failTag]

/-- Claim C1, counterexample: an environment-scoped invocation whose body
raises leaves `PATH` set to the environment-scoped value, not the original
one, so the search path is not restored "regardless of whether the
invocation succeeded". -/
theorem path_not_restored_on_failure_cex :
    run_version fail_body ("3.6".toList) s_example =
      .err .taskFailure
        { virtual_env := some ("/venvs/proj-py3.6".toList)
          path := some ("/venvs/proj-py3.6/bin:/usr/bin".toList)
          python_version := some ("3.6".toList)
          log := [] } ∧
    some ("/venvs/proj-py3.6/bin:/usr/bin".toList) ≠ s_example.path := by
  exact ⟨by decide, by decide⟩

/-- Claim C1, amended: for every environment-scoped invocation performed
by the multi-environment task runner that completes normally, `PATH` is
restored to its original value (on failure it is not restored, see the
counterexample). -/
theorem run_version_restores_path_on_success (func : PState → TResult) (v : List Char)
    (s s' : PState) (h : run_version func v s = .ok s') : s'.path = s.path := by
  unfold run_version at h
  cases hg : get_poetry_venv v s with
  | none => rw [hg] at h; exact absurd h (by simp)
  | some venv => rw [hg] at h; exact setpath_ok_path _ _ _ _ h

/-- Witness for the amended claim C1 at a concrete invocation. -/
theorem run_version_restores_path_on_success_witness :
    run_version probe ("3.6".toList) s_example = .ok s_after ∧
    PState.path s_after = PState.path s_example :=
  ⟨by decide, run_version_restores_path_on_success probe ("3.6".toList) s_example s_after (by decide)⟩

/-- Claim C2: when the body wrapped by the `setpath` context manager
returns normally, `PATH` afterwards equals its pre-invocation value
exactly. -/
theorem setpath_restores_path_on_success (p : List Char) (body : PState → TResult)
    (s s' : PState) (h : setpath p body s = .ok s') : s'.path = s.path :=
  setpath_ok_path p body s s' h

/-- Witness for claim C2 at a concrete invocation. -/
theorem setpath_restores_path_on_success_witness :
    setpath ("/opt/bin".toList) ok_body s_example = .ok s_example ∧
    PState.path s_example = PState.path s_example :=
  ⟨by decide, setpath_restores_path_on_success ("/opt/bin".toList) ok_body s_example s_example (by decide)⟩

/-- Claim C8: if the current active environment path already ends with the
requested identifier's suffix (`py` followed by the identifier),
resolution returns that path unmodified. -/
theorem get_poetry_venv_noop (v current : List Char) (pa pv : Option (List Char))
    (lg : List (List Char)) (h : endswith current ('p' :: 'y' :: v) = true) :
    get_poetry_venv v ⟨some current, pa, pv, lg⟩ = some current := by
  simp [get_poetry_venv, h]

/-- Witness for claim C8 at a concrete path and identifier. -/
theorem get_poetry_venv_noop_witness :
    endswith ("/venvs/proj-py3.8".toList) ('p' :: 'y' :: ("3.8".toList)) = true ∧
    get_poetry_venv ("3.8".toList) ⟨some ("/venvs/proj-py3.8".toList), none, none, []⟩ =
      some ("/venvs/proj-py3.8".toList) :=
  ⟨by decide, get_poetry_venv_noop ("3.8".toList) ("/venvs/proj-py3.8".toList) none none [] (by decide)⟩

/-- Claim C3: when the wrapped task body raises during an
environment-scoped invocation, the original `PATH` is never restored: the
environment-scoped value (the venv bin directory prepended to the original
`PATH`) remains in effect afterwards, and it differs from the original
value. -/
theorem run_version_err_leaks_path (func : PState → TResult) (e : Err) (v cp venv : List Char)
    (s : PState) (hf : ∀ t, func t = .err e t) (hp : s.path = some cp)
    (hv : get_poetry_venv v s = some venv) :
    run_version func v s =
      .err e { s with path := some ((venv ++ "/bin".toList) ++ ':' :: cp),
                      python_version := some v } ∧
    some ((venv ++ "/bin".toList) ++ ':' :: cp) ≠ s.path := by
  constructor
  · simp [run_version, hv, setpath, hp, version_body, hf]
  · rw [hp]
    intro hEq
    simp only [Option.some.injEq] at hEq
    have hlen := congrArg List.length hEq
    simp [List.length_append] at hlen
    omega

/-- Witness for claim C3 at a concrete invocation with a raising body. -/
theorem run_version_err_leaks_path_witness :
    run_version fail_body ("3.6".toList) s_example =
      .err .taskFailure
        { s_example with
            path := some ((("/venvs/proj-py3.6".toList) ++ "/bin".toList) ++ ':' :: ("/usr/bin".toList))
            python_version := some ("3.6".toList) } ∧
    some ((("/venvs/proj-py3.6".toList) ++ "/bin".toList) ++ ':' :: ("/usr/bin".toList)) ≠
      s_example.path :=
  run_version_err_leaks_path fail_body .taskFailure ("3.6".toList) ("/usr/bin".toList)
    ("/venvs/proj-py3.6".toList) s_example (fun _ => rfl) (by decide) (by decide)

lemma splitDash_ne_nil (xs : List Char) : splitDash xs ≠ [] := by
  cases xs with
  | nil => simp [splitDash]
  | cons c rest =>
    simp only [splitDash]
    split
    · simp
    · split <;> simp

lemma splitDash_append_dash (xs ys : List Char) :
    splitDash (xs ++ '-' :: ys) = splitDash xs ++ splitDash ys := by
  induction xs with
  | nil => simp [splitDash]
  | cons c rest ih =>
    by_cases hc : c = '-'
    · subst hc
      simp [splitDash, ih]
    · rw [List.cons_append]
      simp only [splitDash, if_neg hc, ih]
      cases h : splitDash rest with
      | nil => exact absurd h (splitDash_ne_nil rest)
      | cons g gs => simp [h]

lemma joinDash_splitDash (xs : List Char) : joinDash (splitDash xs) = xs := by
  induction xs with
  | nil => rfl
  | cons c rest ih =>
    by_cases hc : c = '-'
    · subst hc
      simp only [splitDash, if_pos rfl]
      cases h : splitDash rest with
      | nil => exact absurd h (splitDash_ne_nil rest)
      | cons g gs =>
        rw [h] at ih
        simp [joinDash, ih]
    · simp only [splitDash, if_neg hc]
      cases h : splitDash rest with
      | nil => exact absurd h (splitDash_ne_nil rest)
      | cons g gs =>
        rw [h] at ih
        cases gs with
        | nil =>
          simp [joinDash] at ih ⊢
          simp [ih]
        | cons g2 gs2 =>
          simp [joinDash] at ih ⊢
          simp [ih]

lemma endswith_append (t s : List Char) : endswith (t ++ s) s = true := by
  simp only [endswith, List.length_append, Nat.add_sub_cancel, decide_eq_true_eq]
  exact List.drop_left t s

lemma endswith_suffix {l s : List Char} (h : endswith l s = true) : ∃ t, l = t ++ s := by
  unfold endswith at h
  rw [decide_eq_true_iff] at h
  refine ⟨l.take (l.length - s.length), ?_⟩
  conv_lhs => rw [← List.take_append_drop (l.length - s.length) l]
  rw [h]

lemma getLast?_of_endswith {l s : List Char} (h : endswith l s = true) (hs : s ≠ []) :
    l.getLast? = s.getLast? := by
  obtain ⟨t, rfl⟩ := endswith_suffix h
  rw [List.getLast?_append]
  cases hgl : s.getLast? with
  | none => exact absurd (List.getLast?_eq_none_iff.mp hgl) hs
  | some a => simp

lemma endswith_py36_not_py310 (p : List Char) :
    endswith (p ++ ("-py3.6".toList)) ("py3.10".toList) = false := by
  cases h : endswith (p ++ ("-py3.6".toList)) ("py3.10".toList) with
  | false => rfl
  | true =>
    have hlast := getLast?_of_endswith h (by decide)
    rw [List.getLast?_append] at hlast
    have h6 : (("-py3.6".toList) : List Char).getLast? = some '6' := by decide
    have h0 : (("py3.10".toList) : List Char).getLast? = some '0' := by decide
    rw [h6, h0] at hlast
    simp at hlast

/-- Claim C7: substitution case of environment resolution: for an active
environment path whose final dash-delimited segment is `py3.6`, requesting
identifier `3.10` yields the same path with that segment replaced by
`py3.10`, all preceding segments unchanged. -/
theorem get_poetry_venv_substitution (p : List Char) (pa pv : Option (List Char))
    (lg : List (List Char)) :
    get_poetry_venv ("3.10".toList) ⟨some (p ++ ("-py3.6".toList)), pa, pv, lg⟩ =
      some (p ++ ("-py3.10".toList)) := by
  have hfalse : endswith (p ++ ("-py3.6".toList)) ('p' :: 'y' :: ("3.10".toList)) = false :=
    endswith_py36_not_py310 p
  have hsplit : splitDash (p ++ ("-py3.6".toList)) = splitDash p ++ [("py3.6".toList)] := by
    rw [show (("-py3.6".toList) : List Char) = '-' :: ("py3.6".toList) from rfl,
      splitDash_append_dash]
    rfl
  simp only [get_poetry_venv, hfalse, Bool.false_eq_true, if_false, hsplit,
    List.dropLast_concat, joinDash_splitDash]
  rfl

/-- Claim C10: every path returned by environment resolution ends with
`py` followed by the requested identifier, and therefore resolving the
same identifier again with the returned path as the active environment
returns it unchanged via the no-op branch. -/
theorem get_poetry_venv_suffix_idempotent (v : List Char) (s : PState) (r : List Char)
    (h : get_poetry_venv v s = some r) :
    endswith r ('p' :: 'y' :: v) = true ∧
    get_poetry_venv v { s with virtual_env := some r } = some r := by
  have hend : endswith r ('p' :: 'y' :: v) = true := by
    unfold get_poetry_venv at h
    split at h
    · exact absurd h (by simp)
    · rename_i cv hcv
      split at h
      · rename_i hcond
        simp only [Option.some.injEq] at h
        subst h
        exact hcond
      · simp only [Option.some.injEq] at h
        subst h
        rw [show joinDash (splitDash cv).dropLast ++ '-' :: 'p' :: 'y' :: v =
          (joinDash (splitDash cv).dropLast ++ ['-']) ++ ('p' :: 'y' :: v) by simp]
        exact endswith_append _ _
  exact ⟨hend, by simp [get_poetry_venv, hend]⟩

/-- Witness for claim C10 at a concrete resolution. -/
theorem get_poetry_venv_suffix_idempotent_witness :
    endswith ("/venvs/proj-py3.7".toList) ('p' :: 'y' :: ("3.7".toList)) = true ∧
    get_poetry_venv ("3.7".toList) { s_example with virtual_env := some ("/venvs/proj-py3.7".toList) } =
      some ("/venvs/proj-py3.7".toList) :=
  get_poetry_venv_suffix_idempotent ("3.7".toList) s_example ("/venvs/proj-py3.7".toList) (by decide)

lemma get_poetry_venv_isSome (v : List Char) (s : PState) (c : List Char)
    (hv : s.virtual_env = some c) : ∃ g, get_poetry_venv v s = some g := by
  simp only [get_poetry_venv, hv]
  split
  · exact ⟨c, rfl⟩
  · exact ⟨_, rfl⟩

lemma run_version_probe_ok (v c cp : List Char) (s : PState)
    (hv : s.virtual_env = some c) (hp : s.path = some cp) :
    run_version probe v s = .ok ⟨some c, some cp, none, s.log ++ [v]⟩ := by
  obtain ⟨g, hg⟩ := get_poetry_venv_isSome v s c hv
  simp [run_version, hg, setpath, hp, version_body, probe, hv]

lemma wrapped_probe (versions : List (List Char)) : ∀ (s : PState) (c cp : List Char),
    s.virtual_env = some c → s.path = some cp →
    wrapped_run probe versions s =
      .ok ⟨some c, some cp, (if versions = [] then s.python_version else none),
           s.log ++ versions⟩ := by
  induction versions with
  | nil =>
    intro s c cp hv hp
    obtain ⟨ve, pa, pv, lg⟩ := s
    simp only [PState.virtual_env] at hv
    simp only [PState.path] at hp
    simp [wrapped_run, hv, hp]
  | cons v rest ih =>
    intro s c cp hv hp
    have hstep : wrapped_run probe (v :: rest) s =
        wrapped_run probe rest ⟨some c, some cp, none, s.log ++ [v]⟩ := by
      rw [show wrapped_run probe (v :: rest) s =
          (match run_version probe v s with
           | .ok s2 => wrapped_run probe rest s2
           | .err e s2 => .err e s2) from rfl,
        run_version_probe_ok v c cp s hv hp]
    rw [hstep, ih ⟨some c, some cp, none, s.log ++ [v]⟩ c cp rfl rfl]
    cases rest with
    | nil => simp
    | cons r rs => simp

/-- Claim C4: for a non-empty sequence of environment identifiers, one
call to the wrapped task runs the underlying body exactly once per
identifier in sequence order (the log grows by exactly that sequence, each
entry recording the `context.python_version` active during the call), and
the identifier is removed from the context after the body returns. -/
theorem python_runs_once_per_version (versions : List (List Char)) (s : PState)
    (c cp : List Char) (hne : versions ≠ []) (hv : s.virtual_env = some c)
    (hp : s.path = some cp) :
    python versions probe s = .ok ⟨some c, some cp, none, s.log ++ versions⟩ := by
  have hno : versions.isEmpty = false := by
    cases versions with
    | nil => exact absurd rfl hne
    | cons a l => rfl
  rw [show python versions probe =
      (if versions.isEmpty then probe else wrapped_run probe versions) from rfl, hno]
  simp only [Bool.false_eq_true, if_false]
  rw [wrapped_probe versions s c cp hv hp]
  simp [hne]

/-- Witness for claim C4: the wrapped task on two identifiers runs the
instrumented body twice, in order. -/
theorem python_runs_once_per_version_witness :
    ([("3.6".toList), ("3.7".toList)] ≠ ([] : List (List Char))) ∧
    python [("3.6".toList), ("3.7".toList)] probe s_example =
      .ok ⟨some ("/venvs/proj-py3.6".toList), some ("/usr/bin".toList), none,
           PState.log s_example ++ [("3.6".toList), ("3.7".toList)]⟩ :=
  ⟨by simp, python_runs_once_per_version [("3.6".toList), ("3.7".toList)] s_example
    ("/venvs/proj-py3.6".toList) ("/usr/bin".toList) (by simp) (by decide) (by decide)⟩
